import Mathlib

/-
  Verification of the AI content-generation pipeline in
  backend/app/services/ai_generator.py (class AIGeneratorService).

  The Python code is shallowly embedded: the parsed output of the text model
  is a `Dict` (association list, as Python dicts with string keys), network
  I/O is an oracle `Net : String → Except String HttpResponse` (a `.error`
  models a raised transport exception from requests.get), the per-call random
  seed and the fresh uuid values are explicit parameters, and filesystem
  writes are collected in the returned list.  String helpers (str.strip,
  re.sub with the concrete MULTILINE pattern, urllib.parse.quote, str.replace,
  the `in` substring test) are embedded as executable functions on `List Char`.
-/

/-- Python whitespace class `\s` (and the default class of str.strip),
restricted to its six ASCII members, which are the only ones the code can
meet in the strings at hand. -/
def isPySpace (c : Char) : Bool :=
  c == ' ' || c == '\t' || c == '\n' || c == '\r' || c == '\x0b' || c == '\x0c'

/-- Left part of Python str.strip: drop leading whitespace. -/
def stripLeft (l : List Char) : List Char :=
  l.dropWhile isPySpace

/-- Right part of Python str.strip: drop trailing whitespace. -/
def stripRight (l : List Char) : List Char :=
  (l.reverse.dropWhile isPySpace).reverse

/-- Python str.strip(): trim whitespace on both ends. -/
def pyStrip (l : List Char) : List Char :=
  stripRight (stripLeft l)

/--
One attempt of the regex `^#+\s.*$` (re.MULTILINE) at a line start.
If the text begins with one or more '#' followed by a `\s` character, the
match consumes the hashes, that whitespace character, and then `.*$` runs to
just before the next newline (note: when the `\s` character is itself the
newline, `.*` then consumes the whole following line — faithful to the
pattern, where `\s` matches `\n` but `.` does not).  Returns the remainder
after the match (which is empty or starts with a newline), or none.
-/
def headerMatch (l : List Char) : Option (List Char) :=
  let k := (l.takeWhile (fun c => c == '#')).length
  if k = 0 then none
  else
    match l.drop k with
    | [] => none
    | c :: rest =>
      if isPySpace c then some (rest.dropWhile (fun d => d != '\n')) else none

theorem headerMatch_length {l r : List Char} (h : headerMatch l = some r) :
    r.length < l.length := by
  unfold headerMatch at h
  by_cases hk : (l.takeWhile (fun c => c == '#')).length = 0
  · simp [hk] at h
  · simp only [hk, if_false] at h
    cases hd : l.drop (l.takeWhile (fun c => c == '#')).length with
    | nil => rw [hd] at h; simp at h
    | cons c rest =>
      rw [hd] at h
      by_cases hs : isPySpace c = true
      · simp only [hs, if_true, Option.some.injEq] at h
        subst h
        have h1 : (rest.dropWhile (fun d => d != '\n')).length ≤ rest.length :=
          (List.dropWhile_suffix _).length_le
        have h2 : (l.drop (l.takeWhile (fun c => c == '#')).length).length =
            l.length - (l.takeWhile (fun c => c == '#')).length := l.length_drop _
        rw [hd] at h2
        simp only [List.length_cons] at h2
        have h3 : (l.takeWhile (fun c => c == '#')).length ≤ l.length :=
          (List.takeWhile_prefix _).length_le
        omega
      · simp [hs] at h

/--
Embedding of `re.sub(r'^#+\s.*$', '', text, flags=re.MULTILINE)`:
scan the text; at every line start try `headerMatch` and drop the matched
span, otherwise copy the character.  (The remainder returned by a match is
empty or starts with `'\n'`, at which position the pattern can never match,
so the flag value passed there is irrelevant.)
-/
def subHeaders : List Char → Bool → List Char
  | [], _ => []
  | c :: cs, atStart =>
    if atStart then
      match h : headerMatch (c :: cs) with
      | some rest => subHeaders rest false
      | none => c :: subHeaders cs (c == '\n')
    else c :: subHeaders cs (c == '\n')
termination_by l _ => l.length
decreasing_by
  · exact headerMatch_length h
  · simp
  · simp

/-- Does the scan of `subHeaders` find any header match?  (Used to state when
the substitution is the identity.) -/
def anyHeaderLine : List Char → Bool → Bool
  | [], _ => false
  | c :: cs, atStart =>
    if atStart then
      match headerMatch (c :: cs) with
      | some _ => true
      | none => anyHeaderLine cs (c == '\n')
    else anyHeaderLine cs (c == '\n')

/-- List-level body of `AIGeneratorService._clean_description`:
`re.sub(r'^#+\s.*$', '', text, flags=re.MULTILINE)` followed by `.strip()`. -/
def cleanL (l : List Char) : List Char :=
  pyStrip (subHeaders l true)

/-- `AIGeneratorService._clean_description` (ai_generator.py lines 142-146). -/
def cleanDescription (s : String) : String :=
  String.mk (cleanL s.data)

/-- Characters urllib.parse.quote leaves unescaped with the default
safe string: unreserved characters and '/' . -/
def isQuoteSafe (c : Char) : Bool :=
  (65 ≤ c.toNat && c.toNat ≤ 90) || (97 ≤ c.toNat && c.toNat ≤ 122) ||
  (48 ≤ c.toNat && c.toNat ≤ 57) ||
  c == '_' || c == '.' || c == '-' || c == '~' || c == '/'

/-- Uppercase hex digit of the low nibble (total via `% 16`). -/
def hexDigit (n : Nat) : Char :=
  match n % 16 with
  | 0 => '0' | 1 => '1' | 2 => '2' | 3 => '3' | 4 => '4' | 5 => '5' | 6 => '6'
  | 7 => '7' | 8 => '8' | 9 => '9' | 10 => 'A' | 11 => 'B' | 12 => 'C'
  | 13 => 'D' | 14 => 'E' | _ => 'F'

/-- UTF-8 bytes of a character, as urllib.parse.quote encodes str input. -/
def utf8Bytes (c : Char) : List Nat :=
  let n := c.toNat
  if n < 128 then [n]
  else if n < 2048 then [192 + n / 64, 128 + n % 64]
  else if n < 65536 then [224 + n / 4096, 128 + (n / 64) % 64, 128 + n % 64]
  else [240 + n / 262144, 128 + (n / 4096) % 64, 128 + (n / 64) % 64, 128 + n % 64]

/-- Percent-encode a byte sequence, `%XX` with uppercase hex. -/
def percentEncodeBytes : List Nat → List Char
  | [] => []
  | b :: bs => '%' :: hexDigit (b / 16) :: hexDigit b :: percentEncodeBytes bs

/-- Character-list body of urllib.parse.quote (default safe string). -/
def quoteChars : List Char → List Char
  | [] => []
  | c :: cs =>
    (if isQuoteSafe c then [c] else percentEncodeBytes (utf8Bytes c)) ++ quoteChars cs

/-- `urllib.parse.quote` on a string. -/
def pyQuote (s : String) : String :=
  String.mk (quoteChars s.data)

/-- Decimal digit character (total via `% 10`). -/
def digitChar (n : Nat) : Char :=
  match n % 10 with
  | 0 => '0' | 1 => '1' | 2 => '2' | 3 => '3' | 4 => '4'
  | 5 => '5' | 6 => '6' | 7 => '7' | 8 => '8' | _ => '9'

/-- Decimal digits of a natural number, as Python str(int) renders the seed
inside the f-string. -/
def decimalChars (n : Nat) : List Char :=
  if n < 10 then [digitChar n]
  else decimalChars (n / 10) ++ [digitChar (n % 10)]
termination_by n
decreasing_by exact Nat.div_lt_self (by omega) (by omega)

/-- str(n) for a natural number. -/
def decimalStr (n : Nat) : String :=
  String.mk (decimalChars n)

/-- Python str.replace for a nonempty pattern: replace every non-overlapping
occurrence, scanning left to right.  (The guard on the pattern length only
rules out the empty pattern, which the code never uses.) -/
def listReplace (pat rep : List Char) : List Char → List Char
  | [] => []
  | c :: cs =>
    if pat.isPrefixOf (c :: cs) && decide (0 < pat.length) then
      rep ++ listReplace pat rep (cs.drop (pat.length - 1))
    else
      c :: listReplace pat rep cs
termination_by l => l.length
decreasing_by
  all_goals simp [List.length_drop]
  omega

/-- `s.replace(pat, rep)` on strings. -/
def pyReplace (s pat rep : String) : String :=
  String.mk (listReplace pat.data rep.data s.data)

/-- Python substring test `pat in s`, on character lists. -/
def listContains (pat : List Char) : List Char → Bool
  | [] => pat.isEmpty
  | c :: cs => pat.isPrefixOf (c :: cs) || listContains pat cs

/-- Python substring test `pat in s` on strings. -/
def strContains (s pat : String) : Bool :=
  listContains pat.data s.data

/-- Dynamic JSON-like values, as held in the untyped result dict. -/
inductive JsonVal where
  | str : String → JsonVal
  | num : Int → JsonVal
  | bool : Bool → JsonVal
  | null : JsonVal
  | arr : List JsonVal → JsonVal
  | obj : List (String × JsonVal) → JsonVal

/-- A Python dict with string keys, as an association list. -/
abbrev Dict := List (String × JsonVal)

/-- `d[k]` lookup (first binding wins; Python dicts have unique keys). -/
def dictLookup : Dict → String → Option JsonVal
  | [], _ => none
  | (k2, v) :: t, k => if k2 = k then some v else dictLookup t k

/-- `d[k] = v`: update the binding in place, or append a new one, as Python
dict assignment preserves insertion order. -/
def dictSet : Dict → String → JsonVal → Dict
  | [], k, v => [(k, v)]
  | (k2, v2) :: t, k, v =>
    if k2 = k then (k, v) :: t else (k2, v2) :: dictSet t k v

/-- The response object of requests.get, as the code reads it: status code,
the Content-Type header (none when absent), and the body bytes. -/
structure HttpResponse where
  status : Nat
  contentType : Option String
  content : List Nat

/-- Network oracle: `.error` models a raised exception during the download
(transport error, timeout); `.ok` a returned response. -/
abbrev Net := String → Except String HttpResponse

/-- The success condition of ai_generator.py line 99 (and line 118):
`status_code == 200 and "image" in headers.get("Content-Type", "")`. -/
def isImageSuccess (r : HttpResponse) : Bool :=
  r.status == 200 && strContains (r.contentType.getD "") "image"

/-- The request URL of ai_generator.py lines 79-88: truncate the prompt to
200 characters, append ", cinematic lighting", percent-encode, interpolate
into the fixed template, and append the api_key parameter when the
POLLINATIONS_API_KEY environment value is truthy (present and non-empty). -/
def pollinationsUrl (imagePrompt : String) (seed : Nat) (apiKey : Option String) : String :=
  let basePrompt := imagePrompt.take 200
  let enhancedPrompt := basePrompt ++ ", cinematic lighting"
  let encodedPrompt := pyQuote enhancedPrompt
  let apiKeyParam :=
    match apiKey with
    | some k => if k = "" then "" else "&api_key=" ++ k
    | none => ""
  "https://image.pollinations.ai/prompt/" ++ encodedPrompt ++
    ".png?width=1280&height=720&model=flux&nologo=true&seed=" ++
    decimalStr seed ++ apiKeyParam

/-- Stored filename `ai_gen_{uuid4}.png` (lines 100, 119). -/
def imageFilename (uuid : String) : String :=
  "ai_gen_" ++ uuid ++ ".png"

/-- Public URL of a stored image (lines 109, 124). -/
def savedImageUrl (filename : String) : String :=
  "http://localhost:8000/uploads/" ++ filename

/-- A filesystem write: target path and bytes written. -/
abbrev FileWrite := String × List Nat

/-- One download attempt against a given URL with the success condition and
persistence of lines 97-110: on a 200/image response store the bytes under a
fresh filename and set imageUrl to its public URL, otherwise (or on a raised
exception) set imageUrl to the empty string. -/
def singleFetch (result : Dict) (net : Net) (url : String) (cwd uuid : String) :
    Dict × List FileWrite :=
  match net url with
  | .error _ => (dictSet result "imageUrl" (.str ""), [])
  | .ok resp =>
    if isImageSuccess resp then
      (dictSet result "imageUrl" (.str (savedImageUrl (imageFilename uuid))),
       [(cwd ++ "/uploads/" ++ imageFilename uuid, resp.content)])
    else (dictSet result "imageUrl" (.str ""), [])

/--
The image block of generate_event_content (lines 77-132), entered when the
parsed result has an "image_prompt" key holding the string `p`.  `u1`, `u2`
are the uuid4 values drawn for the primary and the retry filename; `seed` is
the one random seed drawn at line 77.  The inner try/except of lines 91-132
absorbs any raised exception into imageUrl = "": here a `.error` from the
oracle.  Note the retry at lines 113-127 is reached only from the else branch
of the success test, i.e. only when the primary request RETURNED a response
failing the success condition — a raised exception goes straight to the
except handler and performs no retry.
-/
def imageStep (result : Dict) (p : String) (net : Net) (seed : Nat)
    (apiKey : Option String) (cwd u1 u2 : String) : Dict × List FileWrite :=
  let url := pollinationsUrl p seed apiKey
  match net url with
  | .error _ => (dictSet result "imageUrl" (.str ""), [])
  | .ok resp =>
    if isImageSuccess resp then
      (dictSet result "imageUrl" (.str (savedImageUrl (imageFilename u1))),
       [(cwd ++ "/uploads/" ++ imageFilename u1, resp.content)])
    else
      if strContains url "model=flux" then
        match net (pyReplace url "model=flux" "model=turbo") with
        | .error _ => (dictSet result "imageUrl" (.str ""), [])
        | .ok resp2 =>
          if isImageSuccess resp2 then
            (dictSet result "imageUrl" (.str (savedImageUrl (imageFilename u2))),
             [(cwd ++ "/uploads/" ++ imageFilename u2, resp2.content)])
          else (dictSet result "imageUrl" (.str ""), [])
      else (dictSet result "imageUrl" (.str ""), [])

/-- The post-processing of lines 67-68: when the parsed dict has a
"description" key, replace its value by its cleaned form.  A non-string value
there makes re.sub raise a TypeError, which the outer handler re-raises. -/
def cleanStep (result : Dict) : Except String Dict :=
  match dictLookup result "description" with
  | none => .ok result
  | some (.str s) => .ok (dictSet result "description" (.str (cleanDescription s)))
  | some _ => .error "TypeError"

/--
`AIGeneratorService.generate_event_content` (lines 40-140), from the point
where the text chain has run.  `textOutcome` is the outcome of
`chain.ainvoke(prompt)` at line 64: `.error e` models a raised exception,
which the outer try/except logs and re-raises unchanged (lines 138-140);
`.ok parsed` the parsed result dict.  A non-string "image_prompt" value makes
line 79-81 raise a TypeError outside the inner try, which the outer handler
re-raises.  Returns the result dict and the list of filesystem writes.
-/
def generate_event_content (textOutcome : Except String Dict) (net : Net)
    (seed : Nat) (apiKey : Option String) (cwd u1 u2 : String) :
    Except String (Dict × List FileWrite) :=
  match textOutcome with
  | .error e => .error e
  | .ok parsed =>
    match cleanStep parsed with
    | .error e => .error e
    | .ok result =>
      match dictLookup result "image_prompt" with
      | none => .ok (dictSet result "imageUrl" (.str ""), [])
      | some (.str p) => .ok (imageStep result p net seed apiKey cwd u1 u2)
      | some _ => .error "TypeError"

/-- The request URL with the secondary rendering model in the template and
the same seed: used to state what URL the retry of lines 114-117 requests. -/
def pollinationsTurboUrl (imagePrompt : String) (seed : Nat) : String :=
  "https://image.pollinations.ai/prompt/" ++
    pyQuote (imagePrompt.take 200 ++ ", cinematic lighting") ++
    ".png?width=1280&height=720&model=turbo&nologo=true&seed=" ++ decimalStr seed

/-- "The image-backend API key is configured": the environment value is
present and non-empty (an empty string is falsy in the code's test). -/
def isConfigured : Option String → Bool
  | some k => k != ""
  | none => false

/-- The image request URL as claim C9 words it: truncate the prompt to its
first 200 characters, append the fixed suffix ", cinematic lighting",
percent-encode the result, interpolate into the fixed template, and append
the api_key parameter exactly when the key is configured. -/
def specImageUrl (imagePrompt : String) (seed : Nat) (apiKey : Option String) : String :=
  let truncated := imagePrompt.take 200
  let styled := truncated ++ ", cinematic lighting"
  let encoded := pyQuote styled
  "https://image.pollinations.ai/prompt/" ++ encoded ++
    ".png?width=1280&height=720&model=flux&nologo=true&seed=" ++ decimalStr seed ++
    (if isConfigured apiKey then "&api_key=" ++ apiKey.getD "" else "")

/-- No nonempty suffix of `l` is comparable with `pat` in the prefix order.
Then a replace scan can never start a match inside `l`, whatever follows. -/
def suffixSafe (pat : List Char) : List Char → Bool
  | [] => true
  | c :: cs =>
    !(pat.isPrefixOf (c :: cs)) && !((c :: cs).isPrefixOf pat) && suffixSafe pat cs

/-- Is the value a JSON string? -/
def isStrVal : JsonVal → Bool
  | .str _ => true
  | _ => false

/-- Does the object bind `k` to a string? -/
def hasStrField (fields : Dict) (k : String) : Bool :=
  match dictLookup fields k with
  | some (JsonVal.str _) => true
  | _ => false

/-- Modelled from the spec: an agenda item conforms to the AgendaItem schema
when it is an object with string fields "time", "title" and "speaker". -/
def conformsAgendaItem : JsonVal → Bool
  | .obj fields =>
    hasStrField fields "time" && hasStrField fields "title"
      && hasStrField fields "speaker"
  | _ => false

/-- Modelled from the spec: a value conforms to the EventContent schema when
it is an object with a string "description", an "agenda" array whose items
all conform to AgendaItem, a "tags" array of strings, and a string
"image_prompt". -/
def conformsEventContent : JsonVal → Bool
  | .obj fields =>
    hasStrField fields "description"
      && (match dictLookup fields "agenda" with
          | some (JsonVal.arr items) => items.all conformsAgendaItem
          | _ => false)
      && (match dictLookup fields "tags" with
          | some (JsonVal.arr ts) => ts.all isStrVal
          | _ => false)
      && hasStrField fields "image_prompt"
  | _ => false

/-- Modelled from the spec: the validating parse of the text model's output
(the JsonOutputParser configured with the EventContent model at line 38 and
invoked at line 64; its code is langchain library code, not part of this
repository).  Spec: "On success, returns a value already validated against
the Schema Definitions"; validation failure "signals a SchemaValidationError
that aborts the pipeline".  A conformant object parses to its dict, anything
else fails. -/
def parseEventContent (j : JsonVal) : Except String Dict :=
  match j with
  | .obj fields =>
    if conformsEventContent (.obj fields) then .ok fields
    else .error "SchemaValidationError"
  | _ => .error "SchemaValidationError"

/-- A probe network: raises (transport error) unless the requested URL
carries the secondary model, for which it returns a valid image. -/
def probeNet : Net := fun u =>
  if strContains u "model=turbo" then .ok ⟨200, some "image/png", [7]⟩
  else .error "ConnectionError"

/-! ### Association-list lemmas -/

theorem dictLookup_set_self (d : Dict) (k : String) (v : JsonVal) :
    dictLookup (dictSet d k v) k = some v := by
  induction d with
  | nil => simp [dictSet, dictLookup]
  | cons hd t ih =>
    obtain ⟨k2, v2⟩ := hd
    by_cases hk : k2 = k
    · simp [dictSet, hk, dictLookup]
    · simp [dictSet, hk, dictLookup, ih]

theorem dictLookup_set_ne (d : Dict) (k k2 : String) (v : JsonVal) (h : k2 ≠ k) :
    dictLookup (dictSet d k v) k2 = dictLookup d k2 := by
  have h2 : k ≠ k2 := Ne.symm h
  induction d with
  | nil => simp [dictSet, dictLookup, h2]
  | cons hd t ih =>
    obtain ⟨k3, v3⟩ := hd
    by_cases hk : k3 = k
    · subst hk
      simp [dictSet, dictLookup, h2]
    · simp [dictSet, hk, dictLookup, ih]

/-! ### str.strip lemmas -/

theorem dropWhile_eq_self_of_head (p : Char → Bool) (l : List Char)
    (h : ∀ c, l.head? = some c → p c = false) : l.dropWhile p = l := by
  cases l with
  | nil => rfl
  | cons c cs =>
    have hc : p c = false := h c rfl
    simp [List.dropWhile_cons, hc]

theorem head?_dropWhile_false (p : Char → Bool) (l : List Char) (c : Char)
    (h : (l.dropWhile p).head? = some c) : p c = false := by
  have hh := List.head?_dropWhile_not p l
  rw [h] at hh
  exact hh

theorem dropWhile_dropWhile (p : Char → Bool) (l : List Char) :
    (l.dropWhile p).dropWhile p = l.dropWhile p :=
  dropWhile_eq_self_of_head p _ (fun c h => head?_dropWhile_false p l c h)

theorem stripRight_idem (l : List Char) : stripRight (stripRight l) = stripRight l := by
  unfold stripRight
  rw [List.reverse_reverse, dropWhile_dropWhile]

theorem stripRight_prefix (l : List Char) : stripRight l <+: l := by
  have hs : l.reverse.dropWhile isPySpace <:+ l.reverse := List.dropWhile_suffix _
  have := List.reverse_prefix.mpr hs
  rwa [List.reverse_reverse] at this

theorem head?_of_prefix {l m : List Char} (h : l <+: m) (c : Char)
    (hc : l.head? = some c) : m.head? = some c := by
  obtain ⟨r, rfl⟩ := h
  cases l with
  | nil => simp at hc
  | cons a t => simp at hc; simp [hc]

theorem head?_pyStrip_false (l : List Char) (c : Char)
    (h : (pyStrip l).head? = some c) : isPySpace c = false := by
  have hp : (pyStrip l) <+: stripLeft l := stripRight_prefix _
  have hm : (stripLeft l).head? = some c := head?_of_prefix hp c h
  exact head?_dropWhile_false isPySpace l c hm

theorem pyStrip_idem (l : List Char) : pyStrip (pyStrip l) = pyStrip l := by
  have h1 : stripLeft (pyStrip l) = pyStrip l :=
    dropWhile_eq_self_of_head isPySpace _ (fun c hc => head?_pyStrip_false l c hc)
  show stripRight (stripLeft (pyStrip l)) = pyStrip l
  rw [h1]
  exact stripRight_idem (stripLeft l)

theorem pyStrip_cons_space (c : Char) (l : List Char) (h : isPySpace c = true) :
    pyStrip (c :: l) = pyStrip l := by
  unfold pyStrip stripLeft
  rw [List.dropWhile_cons_of_pos h]

/-! ### Header-substitution lemmas -/

theorem takeWhile_hash_replicate (k : Nat) (w : Char) (hw : (w == '#') = false)
    (t : List Char) :
    (List.replicate k '#' ++ w :: t).takeWhile (fun c => c == '#')
      = List.replicate k '#' := by
  induction k with
  | zero => simp [List.takeWhile_cons, hw]
  | succ n ih => simp [List.replicate_succ, List.takeWhile_cons, ih]

theorem dropWhile_to_newline (r b : List Char) (hr : '\n' ∉ r) :
    (r ++ '\n' :: b).dropWhile (fun d => d != '\n') = '\n' :: b := by
  induction r with
  | nil => simp [List.dropWhile_cons]
  | cons c cs ih =>
    have hc : (c != '\n') = true := by
      simp only [bne_iff_ne, ne_eq]
      intro hcn
      exact hr (hcn ▸ List.mem_cons_self c cs)
    rw [List.cons_append]
    simp only [List.dropWhile_cons, hc, if_true]
    exact ih (fun hm => hr (List.mem_cons_of_mem c hm))

theorem headerMatch_header (k : Nat) (w : Char) (r b : List Char)
    (hk : 0 < k) (hw : isPySpace w = true) (hwh : (w == '#') = false)
    (hr : '\n' ∉ r) :
    headerMatch (List.replicate k '#' ++ w :: (r ++ '\n' :: b)) = some ('\n' :: b) := by
  have hd := List.drop_left (List.replicate k '#') (w :: (r ++ '\n' :: b))
  rw [List.length_replicate] at hd
  unfold headerMatch
  rw [takeWhile_hash_replicate k w hwh]
  simp only [List.length_replicate]
  rw [if_neg (by omega), hd]
  simp only [hw, if_true]
  rw [dropWhile_to_newline r b hr]

theorem subHeaders_nil (b : Bool) : subHeaders [] b = [] := by
  rw [subHeaders.eq_def]

theorem subHeaders_match (c : Char) (cs rest : List Char)
    (h : headerMatch (c :: cs) = some rest) :
    subHeaders (c :: cs) true = subHeaders rest false := by
  rw [subHeaders.eq_def]
  simp only [if_true]
  split
  · rename_i rest2 heq
    rw [h] at heq
    cases heq
    rfl
  · rename_i heq
    rw [h] at heq
    cases heq

theorem subHeaders_nomatch (c : Char) (cs : List Char)
    (h : headerMatch (c :: cs) = none) :
    subHeaders (c :: cs) true = c :: subHeaders cs (c == '\n') := by
  rw [subHeaders.eq_def]
  simp only [if_true]
  split
  · rename_i rest2 heq
    rw [h] at heq
    cases heq
  · rfl

theorem subHeaders_notStart (c : Char) (cs : List Char) :
    subHeaders (c :: cs) false = c :: subHeaders cs (c == '\n') := by
  rw [subHeaders.eq_def]
  simp

theorem isPySpace_ne_hash (w : Char) (hw : isPySpace w = true) :
    (w == '#') = false := by
  unfold isPySpace at hw
  simp only [Bool.or_eq_true, beq_iff_eq] at hw
  rcases hw with ((((h | h) | h) | h) | h) | h <;> subst h <;> decide

theorem subHeaders_header (k : Nat) (w : Char) (r b : List Char)
    (hk : 0 < k) (hw : isPySpace w = true) (hr : '\n' ∉ r) :
    subHeaders (List.replicate k '#' ++ w :: (r ++ '\n' :: b)) true
      = '\n' :: subHeaders b true := by
  have hm := headerMatch_header k w r b hk hw (isPySpace_ne_hash w hw) hr
  obtain ⟨n, rfl⟩ : ∃ n, k = n + 1 := ⟨k - 1, by omega⟩
  rw [List.replicate_succ, List.cons_append] at hm ⊢
  rw [subHeaders_match _ _ _ hm, subHeaders_notStart]
  norm_num

/-- The list-level statement that a header line at a line start is removed
and the text after it is processed unchanged. -/
theorem cleanL_header (k : Nat) (w : Char) (r b : List Char)
    (hk : 0 < k) (hw : isPySpace w = true) (hr : '\n' ∉ r) :
    cleanL (List.replicate k '#' ++ w :: (r ++ '\n' :: b)) = cleanL b := by
  unfold cleanL
  rw [subHeaders_header k w r b hk hw hr]
  exact pyStrip_cons_space '\n' _ (by decide)

/-- If the scan finds no header match, the substitution is the identity. -/
theorem subHeaders_eq_self_of_noHeader (l : List Char) (b : Bool)
    (h : anyHeaderLine l b = false) : subHeaders l b = l := by
  induction l generalizing b with
  | nil => exact subHeaders_nil b
  | cons c cs ih =>
    cases b with
    | false =>
      rw [subHeaders_notStart]
      simp only [anyHeaderLine, Bool.false_eq_true, if_false] at h
      exact congrArg (c :: ·) (ih _ h)
    | true =>
      cases hm : headerMatch (c :: cs) with
      | some rest =>
        simp [anyHeaderLine, hm] at h
      | none =>
        rw [subHeaders_nomatch c cs hm]
        simp only [anyHeaderLine, hm, if_true] at h
        exact congrArg (c :: ·) (ih _ h)

/-! ### C7 and C8: the description post-processor -/

/-- Evaluate one clean pass when the text starts with a header match whose
remainder begins with a newline and the rest of the text has no further
header line. -/
theorem cleanDescription_eval_one (c : Char) (cs rest : List Char)
    (hm : headerMatch (c :: cs) = some ('\n' :: rest))
    (hn : anyHeaderLine rest true = false) :
    cleanDescription (String.mk (c :: cs)) = String.mk (pyStrip ('\n' :: rest)) := by
  show String.mk (pyStrip (subHeaders (c :: cs) true)) = _
  rw [subHeaders_match c cs _ hm, subHeaders_notStart,
    show ('\n' == '\n') = true from rfl, subHeaders_eq_self_of_noHeader rest true hn]

/-- Evaluate one clean pass when the scan finds no header line at all. -/
theorem cleanDescription_eval_none (l : List Char)
    (hn : anyHeaderLine l true = false) :
    cleanDescription (String.mk l) = String.mk (pyStrip l) := by
  show String.mk (pyStrip (subHeaders l true)) = _
  rw [subHeaders_eq_self_of_noHeader l true hn]

/--
C8: `_clean_description` removes every line beginning with one or more '#'
characters followed by whitespace and trims surrounding whitespace from the
result: a line of `k > 0` hashes, a whitespace character and a newline-free
remainder is deleted together with its newline, the rest being cleaned as
before; in particular `_clean_description("# Welcome\nBody text") = "Body text"`.
-/
theorem c8_clean_removes_header_lines (k : Nat) (w : Char) (r b : List Char)
    (hk : 0 < k) (hw : isPySpace w = true) (hr : '\n' ∉ r) :
    cleanDescription (String.mk (List.replicate k '#' ++ w :: (r ++ '\n' :: b)))
      = cleanDescription (String.mk b)
    ∧ cleanDescription "# Welcome\nBody text" = "Body text" := by
  constructor
  · show String.mk (cleanL (List.replicate k '#' ++ w :: (r ++ '\n' :: b)))
      = String.mk (cleanL b)
    rw [cleanL_header k w r b hk hw hr]
  · calc cleanDescription "# Welcome\nBody text"
        = String.mk (pyStrip ('\n' :: "Body text".data)) :=
          cleanDescription_eval_one '#' (" Welcome\nBody text").data ("Body text").data
            (by decide) (by decide)
      _ = "Body text" := rfl

theorem c8_clean_removes_header_lines_witness :
    cleanDescription (String.mk (List.replicate 1 '#' ++ ' ' :: ("Hi".data ++ '\n' :: "Yo".data)))
      = cleanDescription (String.mk "Yo".data)
    ∧ cleanDescription "# Welcome\nBody text" = "Body text" :=
  c8_clean_removes_header_lines 1 ' ' "Hi".data "Yo".data (by decide) (by decide)
    (by decide)

/--
C7 fails on the code: `_clean_description` is not idempotent.  On the input
`" # B\nC"` the substitution finds no header line (the first line starts
with a space, not '#'), but the final strip then exposes `"# B"` at the
start, so a second application removes it: clean(" # B\nC") = "# B\nC"
while clean(clean(" # B\nC")) = "C".
-/
theorem c7_counterexample :
    cleanDescription (cleanDescription " # B\nC") ≠ cleanDescription " # B\nC" := by
  have h1 : cleanDescription " # B\nC" = "# B\nC" := by
    calc cleanDescription " # B\nC"
        = String.mk (pyStrip (" # B\nC").data) :=
          cleanDescription_eval_none (" # B\nC").data (by decide)
      _ = "# B\nC" := rfl
  have h2 : cleanDescription "# B\nC" = "C" := by
    calc cleanDescription "# B\nC"
        = String.mk (pyStrip ('\n' :: "C".data)) :=
          cleanDescription_eval_one '#' (" B\nC").data ("C").data (by decide) (by decide)
      _ = "C" := rfl
  rw [h1, h2]
  decide

/--
C7 amended: `_clean_description` is idempotent on every text whose cleaned
form contains no line matching the header pattern (stripping the substituted
text can expose an indented header on the first line, which is the only way
a second application can differ from the first).
-/
theorem c7_clean_idempotent_of_noHeader (t : String)
    (h : anyHeaderLine (cleanDescription t).data true = false) :
    cleanDescription (cleanDescription t) = cleanDescription t := by
  have hd : (cleanDescription t).data = cleanL t.data := rfl
  show String.mk (cleanL (cleanDescription t).data) = cleanDescription t
  rw [hd] at h ⊢
  unfold cleanL at h ⊢
  rw [subHeaders_eq_self_of_noHeader _ _ h]
  rw [pyStrip_idem]
  rfl

theorem c7_clean_idempotent_of_noHeader_witness :
    cleanDescription (cleanDescription "plain body") = cleanDescription "plain body" := by
  apply c7_clean_idempotent_of_noHeader
  have h1 : cleanDescription "plain body" = "plain body" := by
    calc cleanDescription "plain body"
        = String.mk (pyStrip ("plain body").data) :=
          cleanDescription_eval_none ("plain body").data (by decide)
      _ = "plain body" := rfl
  rw [h1]
  decide

/-! ### Substring lemmas and the flux marker -/

theorem listContains_append_right (pat b : List Char) (a : List Char)
    (h : listContains pat b = true) : listContains pat (a ++ b) = true := by
  induction a with
  | nil => simpa using h
  | cons c cs ih => simp [listContains, ih]

theorem isPrefixOf_append_of_isPrefixOf (pat t b : List Char)
    (h : pat.isPrefixOf t = true) : pat.isPrefixOf (t ++ b) = true := by
  rw [List.isPrefixOf_iff_prefix] at h ⊢
  exact h.trans (List.prefix_append t b)

theorem listContains_append_left (pat a : List Char) (b : List Char)
    (h : listContains pat a = true) : listContains pat (a ++ b) = true := by
  induction a with
  | nil =>
    simp [listContains, List.isEmpty_iff] at h
    subst h
    cases b with
    | nil => simp [listContains, List.isEmpty_iff]
    | cons c cs => simp [listContains, List.isPrefixOf]
  | cons c cs ih =>
    simp only [listContains, Bool.or_eq_true] at h
    rcases h with h | h
    · rw [List.cons_append]
      have := isPrefixOf_append_of_isPrefixOf pat (c :: cs) b h
      simp [listContains, List.cons_append] at this ⊢
      tauto
    · simp only [List.cons_append, listContains, Bool.or_eq_true]
      exact Or.inr (ih h)

/-- The URL built for the primary attempt always carries the marker
"model=flux" that the retry test of line 114 looks for. -/
theorem pollinationsUrl_contains_flux (p : String) (seed : Nat) (key : Option String) :
    strContains (pollinationsUrl p seed key) "model=flux" = true := by
  unfold pollinationsUrl strContains
  simp only [String.data_append]
  apply listContains_append_left
  apply listContains_append_left
  apply listContains_append_right
  decide

/-! ### The image step always binds imageUrl to a string -/

theorem imageStep_lookup_imageUrl (d : Dict) (p : String) (net : Net) (seed : Nat)
    (key : Option String) (cwd u1 u2 : String) :
    ∃ s, dictLookup (imageStep d p net seed key cwd u1 u2).1 "imageUrl"
      = some (JsonVal.str s) := by
  simp only [imageStep]
  repeat' split
  all_goals exact ⟨_, dictLookup_set_self d _ _⟩

theorem imageStep_frame (d : Dict) (p : String) (net : Net) (seed : Nat)
    (key : Option String) (cwd u1 u2 : String) (k : String) (hk : k ≠ "imageUrl") :
    dictLookup (imageStep d p net seed key cwd u1 u2).1 k = dictLookup d k := by
  simp only [imageStep]
  repeat' split
  all_goals exact dictLookup_set_ne d _ k _ hk

/-- Shape of a normal return: parsed dict cleaned, then imageUrl bound. -/
theorem generate_ok_frame (d result : Dict) (net : Net) (seed : Nat)
    (key : Option String) (cwd u1 u2 : String) (r : Dict) (w : List FileWrite)
    (hclean : cleanStep d = .ok result)
    (h : generate_event_content (.ok d) net seed key cwd u1 u2 = .ok (r, w)) :
    (∀ k, k ≠ "imageUrl" → dictLookup r k = dictLookup result k)
    ∧ (∃ u, dictLookup r "imageUrl" = some (JsonVal.str u)) := by
  cases hq : dictLookup result "image_prompt" with
  | none =>
    have hg : generate_event_content (.ok d) net seed key cwd u1 u2
        = .ok (dictSet result "imageUrl" (JsonVal.str ""), []) := by
      simp only [generate_event_content, hclean, hq]
    rw [hg] at h
    injection h with h2
    injection h2 with hra hwa
    constructor
    · intro k hk
      rw [← hra]
      exact dictLookup_set_ne result _ k _ hk
    · exact ⟨"", by rw [← hra]; exact dictLookup_set_self result _ _⟩
  | some v =>
    cases v with
    | str p =>
      have hg : generate_event_content (.ok d) net seed key cwd u1 u2
          = .ok (imageStep result p net seed key cwd u1 u2) := by
        simp only [generate_event_content, hclean, hq]
      rw [hg] at h
      injection h with h2
      have hra : (imageStep result p net seed key cwd u1 u2).1 = r := by rw [h2]
      constructor
      · intro k hk
        rw [← hra]
        exact imageStep_frame result p net seed key cwd u1 u2 k hk
      · rw [← hra]
        exact imageStep_lookup_imageUrl result p net seed key cwd u1 u2
    | num n =>
      simp only [generate_event_content, hclean, hq] at h
      exact Except.noConfusion h
    | bool b =>
      simp only [generate_event_content, hclean, hq] at h
      exact Except.noConfusion h
    | null =>
      simp only [generate_event_content, hclean, hq] at h
      exact Except.noConfusion h
    | arr l =>
      simp only [generate_event_content, hclean, hq] at h
      exact Except.noConfusion h
    | obj o =>
      simp only [generate_event_content, hclean, hq] at h
      exact Except.noConfusion h

/--
C1: every call of generate_event_content that returns normally (no exception)
yields a result dict in which "imageUrl" is bound to a string value (possibly
empty): the binding is made on every non-raising path — primary download
success, fallback success, both failed, transport exception absorbed, or no
"image_prompt" key at all — and is never omitted.
-/
theorem c1_imageUrl_always_defined (textOutcome : Except String Dict) (net : Net)
    (seed : Nat) (key : Option String) (cwd u1 u2 : String) (r : Dict)
    (w : List FileWrite)
    (h : generate_event_content textOutcome net seed key cwd u1 u2 = .ok (r, w)) :
    ∃ s, dictLookup r "imageUrl" = some (JsonVal.str s) := by
  cases textOutcome with
  | error e => exact Except.noConfusion h
  | ok parsed =>
    cases hc : cleanStep parsed with
    | error e =>
      simp only [generate_event_content, hc] at h
      exact Except.noConfusion h
    | ok result =>
      exact (generate_ok_frame parsed result net seed key cwd u1 u2 r w hc h).2

theorem c1_imageUrl_always_defined_witness :
    ∃ s, dictLookup [("image_prompt", JsonVal.str "x"), ("imageUrl", JsonVal.str "")]
      "imageUrl" = some (JsonVal.str s) :=
  c1_imageUrl_always_defined (.ok [("image_prompt", JsonVal.str "x")])
    (fun _ => .error "boom") 7 none "c" "u1" "u2"
    [("image_prompt", JsonVal.str "x"), ("imageUrl", JsonVal.str "")] [] rfl

/--
C4: when the text-generation step raises, generate_event_content re-raises
that same exception unchanged: no GenerationResult, no filesystem write, and
the image step is never reached — the outcome is exactly the original error.
-/
theorem c4_text_error_propagates (e : String) (net : Net) (seed : Nat)
    (key : Option String) (cwd u1 u2 : String) :
    generate_event_content (.error e) net seed key cwd u1 u2 = .error e := rfl

/--
C3: when the primary response fails the success condition (status 200 and a
Content-Type containing "image") or raises, and likewise the retry, the
image step sets imageUrl to the empty string and generate_event_content
still returns normally — no exception from the image step reaches the caller.
-/
theorem c3_double_failure_degrades (d result : Dict) (p : String) (net : Net)
    (seed : Nat) (key : Option String) (cwd u1 u2 : String)
    (hclean : cleanStep d = .ok result)
    (hp : dictLookup result "image_prompt" = some (JsonVal.str p))
    (h1 : ∀ resp, net (pollinationsUrl p seed key) = .ok resp →
      isImageSuccess resp = false)
    (h2 : ∀ resp,
      net (pyReplace (pollinationsUrl p seed key) "model=flux" "model=turbo")
        = .ok resp → isImageSuccess resp = false) :
    generate_event_content (.ok d) net seed key cwd u1 u2
      = .ok (dictSet result "imageUrl" (JsonVal.str ""), [])
    ∧ dictLookup (dictSet result "imageUrl" (JsonVal.str "")) "imageUrl"
      = some (JsonVal.str "") := by
  constructor
  · have hi : imageStep result p net seed key cwd u1 u2
        = (dictSet result "imageUrl" (JsonVal.str ""), []) := by
      simp only [imageStep]
      cases hn : net (pollinationsUrl p seed key) with
      | error e => rfl
      | ok resp =>
        have hf := h1 resp hn
        simp only [hf, Bool.false_eq_true, if_false,
          pollinationsUrl_contains_flux p seed key, if_true]
        cases hn2 :
            net (pyReplace (pollinationsUrl p seed key) "model=flux" "model=turbo") with
        | error e => rfl
        | ok resp2 =>
          have hf2 := h2 resp2 hn2
          simp only [hf2, Bool.false_eq_true, if_false]
    simp only [generate_event_content, hclean, hp, hi]
  · exact dictLookup_set_self result _ _

theorem c3_double_failure_degrades_witness :
    generate_event_content (.ok [("image_prompt", JsonVal.str "x")])
        (fun _ => .ok ⟨500, some "text/html", []⟩) 7 none "c" "u1" "u2"
      = .ok (dictSet [("image_prompt", JsonVal.str "x")] "imageUrl" (JsonVal.str ""), [])
    ∧ dictLookup (dictSet [("image_prompt", JsonVal.str "x")] "imageUrl" (JsonVal.str ""))
      "imageUrl" = some (JsonVal.str "") :=
  c3_double_failure_degrades [("image_prompt", JsonVal.str "x")]
    [("image_prompt", JsonVal.str "x")] "x" (fun _ => .ok ⟨500, some "text/html", []⟩)
    7 none "c" "u1" "u2" rfl rfl
    (fun resp h => by cases h; decide) (fun resp h => by cases h; decide)

/--
C10: a normal return is the parsed dict with exactly two modifications — the
"description" value (when present as a string) replaced by its cleaned form,
and "imageUrl" bound to a string — while every other key's binding is
unchanged, and an absent "description" stays absent.
-/
theorem c10_result_frame (d : Dict) (net : Net) (seed : Nat) (key : Option String)
    (cwd u1 u2 : String) (r : Dict) (w : List FileWrite)
    (h : generate_event_content (.ok d) net seed key cwd u1 u2 = .ok (r, w)) :
    (∀ k, k ≠ "description" → k ≠ "imageUrl" → dictLookup r k = dictLookup d k)
    ∧ (∀ s, dictLookup d "description" = some (JsonVal.str s) →
        dictLookup r "description" = some (JsonVal.str (cleanDescription s)))
    ∧ (dictLookup d "description" = none → dictLookup r "description" = none)
    ∧ (∃ u, dictLookup r "imageUrl" = some (JsonVal.str u)) := by
  cases hdesc : dictLookup d "description" with
  | none =>
    have hclean : cleanStep d = .ok d := by simp only [cleanStep, hdesc]
    obtain ⟨hframe, hex⟩ := generate_ok_frame d d net seed key cwd u1 u2 r w hclean h
    refine ⟨fun k hk1 hk2 => hframe k hk2, ?_, ?_, hex⟩
    · intro s hs
      exact Option.noConfusion hs
    · intro _
      rw [hframe "description" (by decide), hdesc]
  | some v =>
    cases v with
    | str s =>
      have hclean : cleanStep d
          = .ok (dictSet d "description" (JsonVal.str (cleanDescription s))) := by
        simp only [cleanStep, hdesc]
      obtain ⟨hframe, hex⟩ :=
        generate_ok_frame d _ net seed key cwd u1 u2 r w hclean h
      refine ⟨?_, ?_, ?_, hex⟩
      · intro k hk1 hk2
        rw [hframe k hk2]
        exact dictLookup_set_ne d _ k _ hk1
      · intro s2 hs2
        injection hs2 with hv
        injection hv with hss
        subst hss
        rw [hframe "description" (by decide)]
        exact dictLookup_set_self d _ _
      · intro hnone
        exact Option.noConfusion hnone
    | num n =>
      have hc : cleanStep d = .error "TypeError" := by simp only [cleanStep, hdesc]
      simp only [generate_event_content, hc] at h
      exact Except.noConfusion h
    | bool b =>
      have hc : cleanStep d = .error "TypeError" := by simp only [cleanStep, hdesc]
      simp only [generate_event_content, hc] at h
      exact Except.noConfusion h
    | null =>
      have hc : cleanStep d = .error "TypeError" := by simp only [cleanStep, hdesc]
      simp only [generate_event_content, hc] at h
      exact Except.noConfusion h
    | arr l =>
      have hc : cleanStep d = .error "TypeError" := by simp only [cleanStep, hdesc]
      simp only [generate_event_content, hc] at h
      exact Except.noConfusion h
    | obj o =>
      have hc : cleanStep d = .error "TypeError" := by simp only [cleanStep, hdesc]
      simp only [generate_event_content, hc] at h
      exact Except.noConfusion h

theorem c10_result_frame_witness :
    (∀ k, k ≠ "description" → k ≠ "imageUrl" →
      dictLookup [("image_prompt", JsonVal.str "p"), ("imageUrl", JsonVal.str "")] k
        = dictLookup [("image_prompt", JsonVal.str "p")] k)
    ∧ (∀ s, dictLookup [("image_prompt", JsonVal.str "p")] "description"
          = some (JsonVal.str s) →
        dictLookup [("image_prompt", JsonVal.str "p"), ("imageUrl", JsonVal.str "")]
          "description" = some (JsonVal.str (cleanDescription s)))
    ∧ (dictLookup [("image_prompt", JsonVal.str "p")] "description" = none →
        dictLookup [("image_prompt", JsonVal.str "p"), ("imageUrl", JsonVal.str "")]
          "description" = none)
    ∧ (∃ u, dictLookup [("image_prompt", JsonVal.str "p"), ("imageUrl", JsonVal.str "")]
        "imageUrl" = some (JsonVal.str u)) :=
  c10_result_frame [("image_prompt", JsonVal.str "p")] (fun _ => .error "down") 3 none
    "c" "u1" "u2" [("image_prompt", JsonVal.str "p"), ("imageUrl", JsonVal.str "")] []
    rfl

/-! ### str.replace lemmas for the model swap of the retry URL -/

theorem listReplace_nil (pat rep : List Char) : listReplace pat rep [] = [] := by
  rw [listReplace.eq_def]

theorem listReplace_cons_neg (pat rep : List Char) (c : Char) (cs : List Char)
    (h : pat.isPrefixOf (c :: cs) = false) :
    listReplace pat rep (c :: cs) = c :: listReplace pat rep cs := by
  rw [listReplace.eq_def]
  simp [h]

theorem listReplace_cons_pos (pat rep : List Char) (c : Char) (cs : List Char)
    (h : pat.isPrefixOf (c :: cs) = true) (hp : 0 < pat.length) :
    listReplace pat rep (c :: cs)
      = rep ++ listReplace pat rep (cs.drop (pat.length - 1)) := by
  rw [listReplace.eq_def]
  simp [h, hp]

theorem prefix_of_append (pat t r : List Char) (h : pat <+: t ++ r) :
    pat <+: t ∨ t <+: pat :=
  List.prefix_or_prefix_of_prefix h (List.prefix_append t r)

theorem listReplace_skip (pat rep : List Char) (l r : List Char)
    (hs : suffixSafe pat l = true) :
    listReplace pat rep (l ++ r) = l ++ listReplace pat rep r := by
  induction l with
  | nil => simp
  | cons c cs ih =>
    simp only [suffixSafe, Bool.and_eq_true, Bool.not_eq_true'] at hs
    obtain ⟨⟨h1, h2⟩, h3⟩ := hs
    have hg : pat.isPrefixOf (c :: (cs ++ r)) = false := by
      rw [Bool.eq_false_iff]
      intro hcon
      rw [List.isPrefixOf_iff_prefix] at hcon
      rcases prefix_of_append pat (c :: cs) r (by rwa [List.cons_append]) with hca | hca
      · rw [← List.isPrefixOf_iff_prefix] at hca
        rw [h1] at hca
        exact Bool.noConfusion hca
      · rw [← List.isPrefixOf_iff_prefix] at hca
        rw [h2] at hca
        exact Bool.noConfusion hca
    rw [List.cons_append, listReplace_cons_neg pat rep c (cs ++ r) hg, ih h3,
      List.cons_append]

theorem hexDigit_ne_eqChar (n : Nat) : hexDigit n ≠ '=' := by
  unfold hexDigit
  split <;> decide

theorem eqChar_not_mem_percentEncode (bs : List Nat) :
    '=' ∉ percentEncodeBytes bs := by
  induction bs with
  | nil => simp [percentEncodeBytes]
  | cons b t ih =>
    simp only [percentEncodeBytes, List.mem_cons]
    rintro (h | h | h | h)
    · exact absurd h (by decide)
    · exact hexDigit_ne_eqChar _ h.symm
    · exact hexDigit_ne_eqChar _ h.symm
    · exact ih h

theorem eqChar_not_mem_quoteChars (l : List Char) : '=' ∉ quoteChars l := by
  induction l with
  | nil => simp [quoteChars]
  | cons c cs ih =>
    simp only [quoteChars, List.mem_append]
    rintro (h | h)
    · by_cases hq : isQuoteSafe c = true
      · rw [if_pos hq] at h
        simp only [List.mem_singleton] at h
        subst h
        exact absurd hq (by decide)
      · rw [if_neg hq] at h
        exact eqChar_not_mem_percentEncode _ h
    · exact ih h

theorem listReplace_skip_encoded (rep E r : List Char)
    (hE : '=' ∉ E) (hr : ∃ t, r = '.' :: t) :
    listReplace ("model=flux".data) rep (E ++ r)
      = E ++ listReplace ("model=flux".data) rep r := by
  induction E with
  | nil => simp
  | cons c cs ih =>
    have hg : ("model=flux".data).isPrefixOf (c :: (cs ++ r)) = false := by
      rw [Bool.eq_false_iff]
      intro hcon
      rw [List.isPrefixOf_iff_prefix] at hcon
      have hcon2 : ("model=flux".data) <+: (c :: cs) ++ r := by rwa [List.cons_append]
      rcases prefix_of_append _ _ _ hcon2 with hca | hca
      · obtain ⟨t2, ht2⟩ := hca
        apply hE
        rw [← ht2]
        exact List.mem_append_left _ (by decide)
      · obtain ⟨u, hu⟩ := hca
        cases u with
        | nil =>
          apply hE
          rw [show (c :: cs) = "model=flux".data from by simpa using hu]
          decide
        | cons a as =>
          obtain ⟨w2, hw2⟩ := hcon2
          rw [← hu, List.append_assoc] at hw2
          have hr2 : (a :: as) ++ w2 = r := List.append_cancel_left hw2
          obtain ⟨t, rfl⟩ := hr
          rw [List.cons_append] at hr2
          injection hr2 with ha hw
          have hmem : a ∈ "model=flux".data := by
            rw [← hu]
            exact List.mem_append_right _ (List.mem_cons_self a as)
          rw [ha] at hmem
          exact absurd hmem (by decide)
    rw [List.cons_append, listReplace_cons_neg _ _ _ _ hg,
      ih (fun hm => hE (List.mem_cons_of_mem c hm)), List.cons_append]

theorem listReplace_match (pat rep x : List Char) (hp : 0 < pat.length) :
    listReplace pat rep (pat ++ x) = rep ++ listReplace pat rep x := by
  cases pat with
  | nil => simp at hp
  | cons a as =>
    have hpre : (a :: as).isPrefixOf (a :: (as ++ x)) = true := by
      rw [List.isPrefixOf_iff_prefix]
      have := List.prefix_append (a :: as) x
      rwa [List.cons_append] at this
    rw [List.cons_append, listReplace_cons_pos (a :: as) rep a (as ++ x) hpre (by simp)]
    have hd : (as ++ x).drop ((a :: as).length - 1) = x := by
      simp only [List.length_cons, Nat.add_sub_cancel]
      exact List.drop_left as x
    rw [hd]

theorem digitChar_range (n : Nat) :
    47 < (digitChar n).toNat ∧ (digitChar n).toNat < 58 := by
  unfold digitChar
  split <;> decide

theorem decimalChars_digits (n : Nat) :
    ∀ c ∈ decimalChars n, 47 < c.toNat ∧ c.toNat < 58 := by
  induction n using Nat.strong_induction_on with
  | _ n ih =>
    rw [decimalChars.eq_def]
    by_cases h : n < 10
    · simp only [h, if_true, List.mem_singleton]
      rintro c rfl
      exact digitChar_range n
    · simp only [h, if_false, List.mem_append, List.mem_singleton]
      rintro c (hc | rfl)
      · exact ih (n / 10) (Nat.div_lt_self (by omega) (by omega)) c hc
      · exact digitChar_range (n % 10)

theorem listReplace_digits (rep l : List Char)
    (hl : ∀ c ∈ l, 47 < c.toNat ∧ c.toNat < 58) :
    listReplace ("model=flux".data) rep l = l := by
  induction l with
  | nil => exact listReplace_nil _ _
  | cons c cs ih =>
    have hc := hl c (List.mem_cons_self c cs)
    have hg : ("model=flux".data).isPrefixOf (c :: cs) = false := by
      rw [Bool.eq_false_iff]
      intro hcon
      rw [List.isPrefixOf_iff_prefix] at hcon
      obtain ⟨t, ht⟩ := hcon
      rw [show ("model=flux".data) = 'm' :: "odel=flux".data from rfl,
        List.cons_append] at ht
      injection ht with h1 h2
      rw [← h1] at hc
      exact absurd hc (by decide)
    rw [listReplace_cons_neg _ _ _ _ hg,
      ih (fun x hx => hl x (List.mem_cons_of_mem c hx))]

/-- The retry URL of lines 114-116: replacing "model=flux" by "model=turbo"
in the primary URL (no API key configured) swaps exactly the rendering-model
parameter and keeps everything else — in particular the same seed. -/
theorem pollinationsUrl_turbo_replace (p : String) (seed : Nat) :
    pyReplace (pollinationsUrl p seed none) "model=flux" "model=turbo"
      = pollinationsTurboUrl p seed := by
  apply String.ext
  show listReplace ("model=flux".data) ("model=turbo".data)
      (pollinationsUrl p seed none).data = (pollinationsTurboUrl p seed).data
  have hdata : (pollinationsUrl p seed none).data
      = ("https://image.pollinations.ai/prompt/").data
        ++ (quoteChars (p.take 200 ++ ", cinematic lighting").data
        ++ ((".png?width=1280&height=720&").data
        ++ ("model=flux").data
        ++ (("&nologo=true&seed=").data
        ++ decimalChars seed))) := by
    simp [pollinationsUrl, pyQuote, decimalStr, String.data_append,
      List.append_assoc]
  have hdata2 : (pollinationsTurboUrl p seed).data
      = ("https://image.pollinations.ai/prompt/").data
        ++ (quoteChars (p.take 200 ++ ", cinematic lighting").data
        ++ ((".png?width=1280&height=720&").data
        ++ ("model=turbo").data
        ++ (("&nologo=true&seed=").data
        ++ decimalChars seed))) := by
    simp [pollinationsTurboUrl, pyQuote, decimalStr, String.data_append,
      List.append_assoc]
  rw [hdata, hdata2]
  rw [listReplace_skip _ _ _ _ (by decide)]
  rw [listReplace_skip_encoded ("model=turbo".data)
    (quoteChars (p.take 200 ++ ", cinematic lighting").data)
    ((".png?width=1280&height=720&").data ++ ("model=flux").data
      ++ (("&nologo=true&seed=").data ++ decimalChars seed))
    (eqChar_not_mem_quoteChars _) ⟨_, rfl⟩]
  rw [show ((".png?width=1280&height=720&").data ++ ("model=flux").data
      ++ (("&nologo=true&seed=").data ++ decimalChars seed))
    = (".png?width=1280&height=720&").data ++ (("model=flux").data
      ++ (("&nologo=true&seed=").data ++ decimalChars seed)) from by
    simp [List.append_assoc]]
  rw [listReplace_skip _ _ ((".png?width=1280&height=720&").data)
    (("model=flux").data ++ (("&nologo=true&seed=").data ++ decimalChars seed))
    (by decide)]
  rw [listReplace_match _ _ (("&nologo=true&seed=").data ++ decimalChars seed)
    (by decide)]
  rw [listReplace_skip _ _ (("&nologo=true&seed=").data) (decimalChars seed)
    (by decide)]
  rw [listReplace_digits _ _ (decimalChars_digits seed)]
  simp [List.append_assoc]

/-! ### Concrete URL evaluations shared by the C2 and C6 counterexamples -/

theorem decimalChars_42 : decimalChars 42 = ['4', '2'] := by
  have h4 : decimalChars 4 = ['4'] := by
    rw [decimalChars.eq_def, if_pos (by omega : (4:Nat) < 10)]
    decide
  have hdiv : (42:Nat) / 10 = 4 := by norm_num
  have hmod : (42:Nat) % 10 = 2 := by norm_num
  rw [decimalChars.eq_def, if_neg (by omega : ¬ (42:Nat) < 10), hdiv, hmod, h4]
  decide

theorem decimalStr_42 : decimalStr 42 = "42" := by
  rw [decimalStr, decimalChars_42]

set_option maxRecDepth 10000 in
theorem pollinationsUrl_castle_42 :
    pollinationsUrl "castle" 42 none
      = "https://image.pollinations.ai/prompt/castle%2C%20cinematic%20lighting.png?width=1280&height=720&model=flux&nologo=true&seed=42" := by
  simp only [pollinationsUrl, decimalStr_42]
  rfl

set_option maxRecDepth 10000 in
theorem pollinationsTurboUrl_castle_42 :
    pollinationsTurboUrl "castle" 42
      = "https://image.pollinations.ai/prompt/castle%2C%20cinematic%20lighting.png?width=1280&height=720&model=turbo&nologo=true&seed=42" := by
  simp only [pollinationsTurboUrl, decimalStr_42]
  rfl

theorem listContains_self_cons (c : Char) (l : List Char) :
    listContains (c :: l) (c :: l) = true := by
  simp only [listContains, Bool.or_eq_true]
  left
  rw [List.isPrefixOf_iff_prefix]

/--
C6 fails on the code: one random seed is drawn per call (line 77), before the
primary attempt, and the retry URL of line 116 is just the primary URL with
"model=flux" replaced — at seed 42 both the primary and the retry URL carry
the identical "seed=42", so the retry does not use a freshly generated seed.
-/
theorem c6_counterexample :
    pyReplace (pollinationsUrl "castle" 42 none) "model=flux" "model=turbo"
      = "https://image.pollinations.ai/prompt/castle%2C%20cinematic%20lighting.png?width=1280&height=720&model=turbo&nologo=true&seed=42"
    ∧ pollinationsUrl "castle" 42 none
      = "https://image.pollinations.ai/prompt/castle%2C%20cinematic%20lighting.png?width=1280&height=720&model=flux&nologo=true&seed=42"
    ∧ strContains (pyReplace (pollinationsUrl "castle" 42 none)
        "model=flux" "model=turbo") "seed=42" = true
    ∧ strContains (pollinationsUrl "castle" 42 none) "seed=42" = true := by
  have h1 : pyReplace (pollinationsUrl "castle" 42 none) "model=flux" "model=turbo"
      = "https://image.pollinations.ai/prompt/castle%2C%20cinematic%20lighting.png?width=1280&height=720&model=turbo&nologo=true&seed=42" := by
    rw [pollinationsUrl_turbo_replace, pollinationsTurboUrl_castle_42]
  refine ⟨h1, pollinationsUrl_castle_42, ?_, ?_⟩
  · rw [h1]
    decide
  · rw [pollinationsUrl_castle_42]
    decide

/--
C6 amended: a single random numeric seed is generated per call of the image
step, not per attempt; the retry URL equals the primary URL with only the
rendering-model parameter replaced by the secondary model, so it carries the
SAME seed as the primary attempt (shown with no API key configured), and the
substring "seed={seed}" of the primary URL reappears verbatim in the retry
URL.
-/
theorem c6_retry_reuses_seed (p : String) (seed : Nat) :
    pyReplace (pollinationsUrl p seed none) "model=flux" "model=turbo"
      = pollinationsTurboUrl p seed
    ∧ strContains (pollinationsTurboUrl p seed)
        (String.mk ("seed=".data ++ decimalChars seed)) = true := by
  refine ⟨pollinationsUrl_turbo_replace p seed, ?_⟩
  show listContains ("seed=".data ++ decimalChars seed)
    (pollinationsTurboUrl p seed).data = true
  have hdata : (pollinationsTurboUrl p seed).data
      = ("https://image.pollinations.ai/prompt/").data
        ++ (quoteChars (p.take 200 ++ ", cinematic lighting").data
        ++ ((".png?width=1280&height=720&model=turbo&nologo=true&").data
        ++ (("seed=").data ++ decimalChars seed))) := by
    simp [pollinationsTurboUrl, pyQuote, decimalStr, String.data_append,
      List.append_assoc]
  rw [hdata]
  apply listContains_append_right
  apply listContains_append_right
  apply listContains_append_right
  exact listContains_self_cons 's' ("eed=".data ++ decimalChars seed)

/--
C2 fails on the code: a transport-level exception during the primary download
goes to the except handler of lines 130-132, which sets imageUrl = "" without
any retry — even when the secondary-model request would have returned a valid
image.  probeNet raises on the primary URL and would serve an image at the
swapped-model URL, yet the call returns an empty imageUrl and writes nothing.
-/
theorem c2_counterexample :
    generate_event_content (.ok [("image_prompt", JsonVal.str "castle")]) probeNet
        42 none "c" "u1" "u2"
      = .ok ([("image_prompt", JsonVal.str "castle"), ("imageUrl", JsonVal.str "")], [])
    ∧ probeNet (pyReplace (pollinationsUrl "castle" 42 none) "model=flux" "model=turbo")
      = .ok ⟨200, some "image/png", [7]⟩
    ∧ isImageSuccess ⟨200, some "image/png", [7]⟩ = true := by
  have hnet1 : probeNet (pollinationsUrl "castle" 42 none) = .error "ConnectionError" := by
    rw [probeNet, pollinationsUrl_castle_42]
    simp only [show strContains "https://image.pollinations.ai/prompt/castle%2C%20cinematic%20lighting.png?width=1280&height=720&model=flux&nologo=true&seed=42" "model=turbo" = false from by decide,
      Bool.false_eq_true, if_false]
  refine ⟨?_, ?_, by decide⟩
  · have hstep : imageStep [("image_prompt", JsonVal.str "castle")] "castle" probeNet
        42 none "c" "u1" "u2"
        = (dictSet [("image_prompt", JsonVal.str "castle")] "imageUrl" (JsonVal.str ""),
            []) := by
      simp only [imageStep, hnet1]
    calc generate_event_content (.ok [("image_prompt", JsonVal.str "castle")]) probeNet
          42 none "c" "u1" "u2"
        = .ok (imageStep [("image_prompt", JsonVal.str "castle")] "castle" probeNet
            42 none "c" "u1" "u2") := rfl
      _ = .ok ([("image_prompt", JsonVal.str "castle"),
            ("imageUrl", JsonVal.str "")], []) := by rw [hstep]; rfl
  · rw [pollinationsUrl_turbo_replace, pollinationsTurboUrl_castle_42, probeNet]
    simp only [show strContains "https://image.pollinations.ai/prompt/castle%2C%20cinematic%20lighting.png?width=1280&height=720&model=turbo&nologo=true&seed=42" "model=turbo" = true from by decide,
      if_true]

/--
C2 amended: the retry with the rendering model swapped to the secondary model
happens exactly when the primary attempt RETURNED a response failing the
success condition (bad status or non-image content type); the retry then
applies the same success condition and persistence (a single fetch against
the swapped URL with the second fresh filename).  A transport-level exception
raised during the primary download is instead absorbed directly into an empty
imageUrl with no retry.
-/
theorem c2_retry_on_response_failure (d : Dict) (p : String) (net : Net)
    (seed : Nat) (key : Option String) (cwd u1 u2 : String) :
    (∀ resp, net (pollinationsUrl p seed key) = .ok resp →
      isImageSuccess resp = false →
      imageStep d p net seed key cwd u1 u2
        = singleFetch d net
            (pyReplace (pollinationsUrl p seed key) "model=flux" "model=turbo") cwd u2)
    ∧ (∀ msg, net (pollinationsUrl p seed key) = .error msg →
      imageStep d p net seed key cwd u1 u2
        = (dictSet d "imageUrl" (JsonVal.str ""), [])) := by
  constructor
  · intro resp hn hf
    simp only [imageStep, singleFetch, hn, hf, Bool.false_eq_true, if_false,
      pollinationsUrl_contains_flux p seed key, if_true]
  · intro msg hn
    simp only [imageStep, hn]

theorem c2_retry_on_response_failure_witness :
    imageStep [("t", JsonVal.str "v")] "x" (fun _ => .ok ⟨500, some "text/html", []⟩)
        7 none "c" "u1" "u2"
      = singleFetch [("t", JsonVal.str "v")] (fun _ => .ok ⟨500, some "text/html", []⟩)
          (pyReplace (pollinationsUrl "x" 7 none) "model=flux" "model=turbo") "c" "u2" :=
  (c2_retry_on_response_failure [("t", JsonVal.str "v")] "x"
    (fun _ => .ok ⟨500, some "text/html", []⟩) 7 none "c" "u1" "u2").1
    ⟨500, some "text/html", []⟩ rfl (by decide)

/--
C9: the image request URL is built by truncating the prompt to its first 200
characters, appending the fixed suffix ", cinematic lighting",
percent-encoding the result, and interpolating it into
prompt/{encoded}.png?width=1280&height=720&model=flux&nologo=true&seed={seed}
on the fixed base, with "&api_key={key}" appended exactly when the
image-backend API key is configured (present and non-empty) in the
environment.
-/
theorem c9_url_construction (p : String) (seed : Nat) (key : Option String) :
    pollinationsUrl p seed key = specImageUrl p seed key := by
  cases key with
  | none => rfl
  | some k =>
    by_cases hk : k = ""
    · subst hk
      rfl
    · simp [pollinationsUrl, specImageUrl, isConfigured, hk]

theorem hasStrField_spec (f : Dict) (k : String) (h : hasStrField f k = true) :
    ∃ s, dictLookup f k = some (JsonVal.str s) := by
  unfold hasStrField at h
  split at h
  · rename_i s heq
    exact ⟨s, heq⟩
  · exact Bool.noConfusion h

theorem conformsAgendaItem_spec (it : JsonVal) (h : conformsAgendaItem it = true) :
    ∃ fs, it = JsonVal.obj fs
      ∧ (∃ a, dictLookup fs "time" = some (JsonVal.str a))
      ∧ (∃ b, dictLookup fs "title" = some (JsonVal.str b))
      ∧ (∃ c, dictLookup fs "speaker" = some (JsonVal.str c)) := by
  cases it with
  | obj fields =>
    simp only [conformsAgendaItem, Bool.and_eq_true] at h
    obtain ⟨⟨h1, h2⟩, h3⟩ := h
    exact ⟨fields, rfl, hasStrField_spec _ _ h1, hasStrField_spec _ _ h2,
      hasStrField_spec _ _ h3⟩
  | str s => simp [conformsAgendaItem] at h
  | num n => simp [conformsAgendaItem] at h
  | bool b => simp [conformsAgendaItem] at h
  | null => simp [conformsAgendaItem] at h
  | arr l => simp [conformsAgendaItem] at h

/--
C5: the text step's output is validated against the schema definitions: a
successful parse yields a dict holding all four EventContent fields with the
declared types — string description, agenda array whose every item is an
object with string time/title/speaker, tags array of strings, string
image_prompt — and any non-conformant output makes the parse signal an error
which generate_event_content then propagates instead of returning a result.
(The validating parse is modelled from the spec: it lives in the langchain
JsonOutputParser, outside this repository's sources.)
-/
theorem c5_schema_validation (j : JsonVal) (net : Net) (seed : Nat)
    (key : Option String) (cwd u1 u2 : String) :
    (∀ d, parseEventContent j = .ok d →
      (∃ s, dictLookup d "description" = some (JsonVal.str s))
      ∧ (∃ items, dictLookup d "agenda" = some (JsonVal.arr items)
          ∧ ∀ it ∈ items, ∃ fs, it = JsonVal.obj fs
              ∧ (∃ a, dictLookup fs "time" = some (JsonVal.str a))
              ∧ (∃ b, dictLookup fs "title" = some (JsonVal.str b))
              ∧ (∃ c, dictLookup fs "speaker" = some (JsonVal.str c)))
      ∧ (∃ ts, dictLookup d "tags" = some (JsonVal.arr ts)
          ∧ ∀ t ∈ ts, ∃ s, t = JsonVal.str s)
      ∧ (∃ ip, dictLookup d "image_prompt" = some (JsonVal.str ip)))
    ∧ (conformsEventContent j = false →
      ∃ e, parseEventContent j = .error e
        ∧ generate_event_content (parseEventContent j) net seed key cwd u1 u2
            = .error e) := by
  constructor
  · intro d hd
    cases j with
    | obj fields =>
      by_cases hconf : conformsEventContent (JsonVal.obj fields) = true
      · have hdf : d = fields := by
          simp only [parseEventContent] at hd
          rw [if_pos hconf] at hd
          exact (Except.ok.inj hd).symm
        subst hdf
        simp only [conformsEventContent, Bool.and_eq_true] at hconf
        obtain ⟨⟨⟨h1, h2⟩, h3⟩, h4⟩ := hconf
        refine ⟨hasStrField_spec _ _ h1, ?_, ?_, hasStrField_spec _ _ h4⟩
        · cases hag : dictLookup d "agenda" with
          | none => rw [hag] at h2; exact Bool.noConfusion h2
          | some v =>
            cases v with
            | arr items =>
              refine ⟨items, rfl, ?_⟩
              rw [hag] at h2
              intro it hit
              exact conformsAgendaItem_spec it (List.all_eq_true.mp h2 it hit)
            | str s => rw [hag] at h2; exact Bool.noConfusion h2
            | num n => rw [hag] at h2; exact Bool.noConfusion h2
            | bool b => rw [hag] at h2; exact Bool.noConfusion h2
            | null => rw [hag] at h2; exact Bool.noConfusion h2
            | obj o => rw [hag] at h2; exact Bool.noConfusion h2
        · cases htg : dictLookup d "tags" with
          | none => rw [htg] at h3; exact Bool.noConfusion h3
          | some v =>
            cases v with
            | arr ts =>
              refine ⟨ts, rfl, ?_⟩
              rw [htg] at h3
              intro t ht
              have := List.all_eq_true.mp h3 t ht
              cases t with
              | str s => exact ⟨s, rfl⟩
              | num n => exact Bool.noConfusion this
              | bool b => exact Bool.noConfusion this
              | null => exact Bool.noConfusion this
              | arr l2 => exact Bool.noConfusion this
              | obj o => exact Bool.noConfusion this
            | str s => rw [htg] at h3; exact Bool.noConfusion h3
            | num n => rw [htg] at h3; exact Bool.noConfusion h3
            | bool b => rw [htg] at h3; exact Bool.noConfusion h3
            | null => rw [htg] at h3; exact Bool.noConfusion h3
            | obj o => rw [htg] at h3; exact Bool.noConfusion h3
      · simp only [parseEventContent] at hd
        rw [if_neg hconf] at hd
        exact Except.noConfusion hd
    | str s => exact Except.noConfusion hd
    | num n => exact Except.noConfusion hd
    | bool b => exact Except.noConfusion hd
    | null => exact Except.noConfusion hd
    | arr l => exact Except.noConfusion hd
  · intro hconf
    cases j with
    | obj fields =>
      refine ⟨"SchemaValidationError", ?_, ?_⟩
      · simp only [parseEventContent]
        rw [if_neg (by rw [hconf]; exact Bool.noConfusion)]
      · have hp : parseEventContent (JsonVal.obj fields)
            = .error "SchemaValidationError" := by
          simp only [parseEventContent]
          rw [if_neg (by rw [hconf]; exact Bool.noConfusion)]
        rw [hp]
        rfl
    | str s => exact ⟨"SchemaValidationError", rfl, rfl⟩
    | num n => exact ⟨"SchemaValidationError", rfl, rfl⟩
    | bool b => exact ⟨"SchemaValidationError", rfl, rfl⟩
    | null => exact ⟨"SchemaValidationError", rfl, rfl⟩
    | arr l => exact ⟨"SchemaValidationError", rfl, rfl⟩

theorem c5_schema_validation_witness :
    ∃ e, parseEventContent (JsonVal.str "oops") = .error e
      ∧ generate_event_content (parseEventContent (JsonVal.str "oops"))
          (fun _ => .error "x") 1 none "c" "a" "b" = .error e :=
  (c5_schema_validation (JsonVal.str "oops") (fun _ => .error "x") 1 none "c" "a" "b").2
    (by decide)
